import Mathlib

/-!
Verification of the transaction-report aggregation core
(`src/data/data_functions.py` and `src/agent/agent.py`).

Shallow embedding conventions:
* pandas float64 values are idealised as exact rationals `ℚ`; `Series.round(2)`
  is modelled as round-half-even at two decimals (`round2`);
* the special float values produced by division by zero are modelled by the
  `PValue` type (`fin q`, `posInf`, `negInf`, `nan`), since `fillna` only
  replaces `nan`, not infinities;
* `pd.to_numeric(..., errors="coerce")` on a plain decimal string is modelled
  by `toNumeric : String → Option ℚ` (optional sign, digits, one optional
  decimal point; exponents and surrounding whitespace are not modelled);
* `pd.to_datetime` / `datetime.strptime` on an ISO `YYYY-MM-DD` string is
  modelled by `toDatetime : String → Option Date`, validating the Gregorian
  calendar exactly as Python `datetime` does (leap years included);
  `errors="coerce"` yields `none` (NaT), the raising variants yield
  `Except.error`;
* fallible Python code (raised `ValueError` / parse errors) is modelled with
  `Except String`;
* filesystem / matplotlib / LLM side effects are out of scope: the PDF path is
  returned as data, the chart writes are dropped, and the chat model is an
  opaque parameter `predict : String → String`.
-/

/-- Round-half-even of a rational to an integer, the rounding used by
numpy / pandas `round`. Ties (fractional part exactly 1/2) go to the even
integer. -/
def rndHE (q : ℚ) : ℤ :=
  if q - (⌊q⌋ : ℚ) < 1/2 then ⌊q⌋
  else if 1/2 < q - (⌊q⌋ : ℚ) then ⌊q⌋ + 1
  else if 2 ∣ ⌊q⌋ then ⌊q⌋ else ⌊q⌋ + 1

/-- pandas `Series.round(2)`: round-half-even at two decimal places. -/
def round2 (q : ℚ) : ℚ := (rndHE (q * 100) : ℚ) / 100

/-- Numeric value of a list of ASCII digit characters, most significant
first. -/
def digitsVal (cs : List Char) : ℕ :=
  cs.foldl (fun a c => 10 * a + (c.toNat - 48)) 0

/-- Model of Python `str.replace("$", "")`: removes every dollar sign. -/
def replaceDollar (s : String) : String :=
  String.mk (s.toList.filter (fun c => c ≠ '$'))

/-- Unsigned decimal literal parser: digits, optionally a single point with
more digits, at least one digit overall. -/
def parseUnsigned (cs : List Char) : Option ℚ :=
  let ip := cs.takeWhile Char.isDigit
  let rest := cs.dropWhile Char.isDigit
  match rest with
  | [] => if ip.isEmpty then none else some (digitsVal ip : ℚ)
  | '.' :: fp =>
      if fp.all Char.isDigit && !(ip.isEmpty && fp.isEmpty) then
        some ((digitsVal ip : ℚ) + (digitsVal fp : ℚ) / (10 : ℚ) ^ fp.length)
      else none
  | _ => none

/-- Model of `pd.to_numeric(s, errors="coerce")` on a plain decimal string:
optional sign then an unsigned decimal literal; anything else coerces to
null (`none`, pandas NaN). -/
def toNumeric (s : String) : Option ℚ :=
  match s.toList with
  | '-' :: rest => (parseUnsigned rest).map (fun q => -q)
  | '+' :: rest => parseUnsigned rest
  | cs => parseUnsigned cs

/-- A calendar date as plain fields; validity is enforced where the Python
code constructs `datetime` values. -/
structure Date where
  year : ℕ
  month : ℕ
  day : ℕ
deriving DecidableEq

/-- Gregorian leap-year rule, as implemented by Python `datetime`. -/
def isLeap (y : ℕ) : Bool :=
  y % 4 = 0 && (y % 100 ≠ 0 || y % 400 = 0)

/-- Number of days of a month in a given year (Gregorian). -/
def daysInMonth (y m : ℕ) : ℕ :=
  if m = 2 then (if isLeap y then 29 else 28)
  else if m == 4 || m == 6 || m == 9 || m == 11 then 30
  else 31

/-- Model of the Python `datetime(year, month, day)` constructor (also of
`strptime` once the three fields are read): validates the ranges Python
validates and fails (raising `ValueError` at the call sites) otherwise. -/
def mkDatetime (y m d : ℕ) : Option Date :=
  if 1 ≤ y && y ≤ 9999 && 1 ≤ m && m ≤ 12 && 1 ≤ d && d ≤ daysInMonth y m then
    some ⟨y, m, d⟩
  else none

/-- Model of `pd.to_datetime` on a date string restricted to the ISO
`YYYY-MM-DD` format used throughout this repository; unparsable input gives
`none` (NaT under `errors="coerce"`, a raised error otherwise). -/
def toDatetime (s : String) : Option Date :=
  match s.toList with
  | [y1, y2, y3, y4, h1, m1, m2, h2, d1, d2] =>
      if y1.isDigit && y2.isDigit && y3.isDigit && y4.isDigit && h1 == '-' &&
         m1.isDigit && m2.isDigit && h2 == '-' && d1.isDigit && d2.isDigit then
        mkDatetime (digitsVal [y1, y2, y3, y4]) (digitsVal [m1, m2]) (digitsVal [d1, d2])
      else none
  | _ => none

/-- Chronological order on dates (equal to pandas `Timestamp` comparison for
valid dates): lexicographic on year, month, day. -/
def dateLe (a b : Date) : Bool :=
  a.year < b.year ||
    (a.year = b.year && (a.month < b.month ||
      (a.month = b.month && a.day ≤ b.day)))

/-- Serial day number (days since 1970-01-01), Gregorian civil calendar.
Used for the `(end - start).days` computation and for weekday arithmetic. -/
def serial (dt : Date) : ℤ :=
  let y : ℤ := if dt.month ≤ 2 then (dt.year : ℤ) - 1 else (dt.year : ℤ)
  let m : ℤ := (dt.month : ℤ)
  let era : ℤ := y / 400
  let yoe : ℤ := y - era * 400
  let doy : ℤ := (153 * (m + (if 2 < m then -3 else 9)) + 2) / 5 + (dt.day : ℤ) - 1
  let doe : ℤ := yoe * 365 + yoe / 4 - yoe / 100 + doy
  era * 146097 + doe - 719468

/-- Day of week, 0 = Monday … 6 = Sunday (1970-01-01 was a Thursday). -/
def dow (d : Date) : ℤ := (serial d + 3) % 7

/-- Successor date in the Gregorian calendar. -/
def nextDay (d : Date) : Date :=
  if d.day < daysInMonth d.year d.month then ⟨d.year, d.month, d.day + 1⟩
  else if d.month < 12 then ⟨d.year, d.month + 1, 1⟩
  else ⟨d.year + 1, 1, 1⟩

/-- Add a number of days to a date. -/
def addDays : ℕ → Date → Date
  | 0, d => d
  | n + 1, d => addDays n (nextDay d)

/-- End of the calendar week containing `d` for the pandas default weekly
frequency `W` (= `W-SUN`): the Sunday on or after `d`.  Models
`to_period("W").end_time` followed by `strftime("%Y-%m-%d")`. -/
def weekEnd (d : Date) : Date := addDays ((6 - dow d).toNat) d

/-- Zero-pad the decimal representation of `n` to `k` characters. -/
def pad (k n : ℕ) : String :=
  let s := toString n
  String.mk (List.replicate (k - s.length) '0') ++ s

/-- Model of `strftime("%Y-%m")`. -/
def fmtYM (d : Date) : String := pad 4 d.year ++ "-" ++ pad 2 d.month

/-- Model of `strftime("%Y-%m-%d")`. -/
def fmtYMD (d : Date) : String := fmtYM d ++ "-" ++ pad 2 d.day

/-- Model of `strftime("%Y%m%d")`. -/
def fmtCompact (d : Date) : String :=
  pad 4 d.year ++ pad 2 d.month ++ pad 2 d.day

/-- Lexicographic order on character lists by code point. -/
def listCharLe : List Char → List Char → Bool
  | [], _ => true
  | _ :: _, [] => false
  | a :: s, b :: t => if a < b then true else if a = b then listCharLe s t else false

/-- The `<=` comparison Python and pandas perform on strings: lexicographic
by code point. -/
def strLe (a b : String) : Bool := listCharLe a.toList b.toList

/-- The ordinal-month table of `extract_dates`, in Python dict insertion
order (Spanish and English interleaved, months 1..12). -/
def monthMapping : List (String × ℕ) :=
  [("primer", 1), ("first", 1),
   ("segundo", 2), ("second", 2),
   ("tercer", 3), ("third", 3),
   ("cuarto", 4), ("fourth", 4),
   ("quinto", 5), ("fifth", 5),
   ("sexto", 6), ("sixth", 6),
   ("séptimo", 7), ("seventh", 7),
   ("octavo", 8), ("eighth", 8),
   ("noveno", 9), ("ninth", 9),
   ("décimo", 10), ("tenth", 10),
   ("undécimo", 11), ("eleventh", 11),
   ("duodécimo", 12), ("twelfth", 12)]

/-- Substring containment on character lists, the model of the Python
`needle in haystack` test on strings. -/
def hasSubstr (n : List Char) : List Char → Bool
  | [] => n.isEmpty
  | c :: t => n.isPrefixOf (c :: t) || hasSubstr n t

/-- Model of `re.search(r"\d{4}", s)`: the value of the leftmost run of four
consecutive decimal digits, if any. -/
def findYear : List Char → Option ℕ
  | [] => none
  | c1 :: t =>
    match t with
    | c2 :: c3 :: c4 :: _ =>
        if c1.isDigit && c2.isDigit && c3.isDigit && c4.isDigit then
          some (digitsVal [c1, c2, c3, c4])
        else findYear t
    | _ => none

/-- Scanning worker for `findDates`; the fuel argument (instantiated with
the string length, one unit per position tried) only makes the recursion
structural. -/
def findDatesAux : ℕ → List Char → List (ℕ × ℕ × ℕ)
  | 0, _ => []
  | fuel + 1, cs =>
    match cs with
    | c1 :: c2 :: c3 :: c4 :: c5 :: c6 :: c7 :: c8 :: c9 :: c10 :: rest =>
        if c1.isDigit && c2.isDigit && c3.isDigit && c4.isDigit && c5 == '-' &&
           c6.isDigit && c7.isDigit && c8 == '-' && c9.isDigit && c10.isDigit then
          (digitsVal [c1, c2, c3, c4], digitsVal [c6, c7], digitsVal [c9, c10]) ::
            findDatesAux fuel rest
        else findDatesAux fuel (c2 :: c3 :: c4 :: c5 :: c6 :: c7 :: c8 :: c9 :: c10 :: rest)
    | _ :: t => findDatesAux fuel t
    | [] => []

/-- Model of `re.findall(r"(\d{4}-\d{2}-\d{2})", s)`: leftmost,
non-overlapping matches of the fixed digit/dash pattern, as raw
(year, month, day) digit values in source order. -/
def findDates (cs : List Char) : List (ℕ × ℕ × ℕ) :=
  findDatesAux cs.length cs

/-- The `for month_name, month_num in month_mapping.items()` loop of
`extract_dates`: the first table entry whose name occurs in the prompt
*and* for which a 4-digit year is available returns its month number; a
name match without a year falls through to the next iteration (and the year
test is the same at every iteration since the prompt is fixed). -/
def scanMonths (cs : List Char) : List (String × ℕ) → Option ℕ
  | [] => none
  | (name, n) :: rest =>
      if hasSubstr name.toList cs then
        if (findYear cs).isSome then some n else scanMonths cs rest
      else scanMonths cs rest

/-- Last day of the month as hard-coded in `extract_dates`: February → 28
(leap years deliberately not handled), April/June/September/November → 30,
otherwise 31. -/
def monthEndDay (m : ℕ) : ℕ :=
  if m = 2 then 28
  else if m == 4 || m == 6 || m == 9 || m == 11 then 30
  else 31

/-- The `YYYY-MM-DD` fallback strategy of `extract_dates`: if exactly two
substrings match the date pattern, parse both with `strptime` (which raises
on an invalid calendar date) and return them in source order; otherwise
return `(None, None)`. -/
def isoStrategy (cs : List Char) : Except String (Option (Date × Date)) :=
  match findDates cs with
  | [t1, t2] =>
      match mkDatetime t1.1 t1.2.1 t1.2.2, mkDatetime t2.1 t2.2.1 t2.2.2 with
      | some s, some e => .ok (some (s, e))
      | _, _ => .error "ValueError: time data does not match format"
  | _ => .ok none

/-- Model of `extract_dates` (src/agent/agent.py, lines 8-53).  The ordinal
month strategy runs first; on a month word plus 4-digit year it builds
`datetime(year, month, 1)` and the fixed month end (the constructor raises
for year 0); otherwise the ISO date-pair strategy runs. -/
def extract_dates (prompt : String) : Except String (Option (Date × Date)) :=
  let cs := prompt.toList
  match scanMonths cs monthMapping, findYear cs with
  | some num, some y =>
      match mkDatetime y num 1, mkDatetime y num (monthEndDay num) with
      | some s, some e => .ok (some (s, e))
      | _, _ => .error "ValueError: year is out of range"
  | _, _ => isoStrategy cs

/-- A row of the input transactions table (section 6 of the design: columns
`client_id`, `date` (ISO date string), `amount` (string with optional `$`),
`mcc` (category code, held as its string coercion `astype(str)`)). -/
structure Row where
  client_id : ℤ
  date : String
  amount : String
  mcc : String
deriving DecidableEq

/-- The single-row result table of `earnings_and_expenses`, columns in the
order `Earnings`, `Expenses`. -/
structure EEResult where
  Earnings : ℚ
  Expenses : ℚ
deriving DecidableEq

/-- The row filter of `earnings_and_expenses` (line 37): client match and
raw lexicographic string comparison of the `date` column with the bounds. -/
def eeMask (c : ℤ) (sS eS : String) (r : Row) : Bool :=
  r.client_id == c && strLe sS r.date && strLe r.date eS

/-- Positive bucket of one parsed amount (`x if x > 0 else 0`; NaN compares
false, hence 0). -/
def posBucket : Option ℚ → ℚ
  | some q => if 0 < q then q else 0
  | none => 0

/-- Negative bucket of one parsed amount (`x if x < 0 else 0`; NaN compares
false, hence 0). -/
def negBucket : Option ℚ → ℚ
  | some q => if q < 0 then q else 0
  | none => 0

/-- Model of `earnings_and_expenses` (data_functions.py, lines 34-76): filter
by client and raw string date range, strip `$` and coerce amounts, split into
per-row earnings/expenses buckets, round the buckets to 2 decimals, sum, and
round the sums again.  The bar-chart side effect is out of scope. -/
def earnings_and_expenses (df : List Row) (client_id : ℤ)
    (start_date end_date : String) : EEResult :=
  let f := df.filter (eeMask client_id start_date end_date)
  let amounts := f.map (fun r => toNumeric (replaceDollar r.amount))
  { Earnings := round2 ((amounts.map (fun a => round2 (posBucket a))).sum)
    Expenses := round2 ((amounts.map (fun a => round2 (negBucket a))).sum) }

/-- Written from the words of the specification for comparison: "sum each
bucket across all matching rows; round both sums to 2 decimal places" —
rounding applied only to the sums, not to the per-row bucket values. -/
def eeSpecClaim (df : List Row) (client_id : ℤ)
    (start_date end_date : String) : EEResult :=
  let f := df.filter (eeMask client_id start_date end_date)
  let amounts := f.map (fun r => toNumeric (replaceDollar r.amount))
  { Earnings := round2 ((amounts.map posBucket).sum)
    Expenses := round2 ((amounts.map negBucket).sum) }

/-- Insert a string into a ≤-sorted list of strings. -/
def insertStr (a : String) : List String → List String
  | [] => [a]
  | b :: t => if strLe a b then a :: b :: t else b :: insertStr a t

/-- Sort a list of strings ascending (Python / pandas code-point order). -/
def sortStrings : List String → List String
  | [] => []
  | a :: t => insertStr a (sortStrings t)

/-- Group keys produced by a pandas `groupby` (default `sort=True`,
`dropna=True`; null keys never reach this point in the model): the distinct
key values, sorted ascending. -/
def groupKeys (f : α → String) (l : List α) : List String :=
  sortStrings (l.map f).dedup

/-- Maximum of a list of rationals (`Series.max`); 0 for the empty list,
which no caller reaches. -/
def listMax : List ℚ → ℚ
  | [] => 0
  | [q] => q
  | q :: r :: t => max q (listMax (r :: t))

/-- Minimum of a list of rationals (`Series.min`); 0 for the empty list,
which no caller reaches. -/
def listMin : List ℚ → ℚ
  | [] => 0
  | [q] => q
  | q :: r :: t => min q (listMin (r :: t))

/-- An output row of `expenses_summary`, columns in the order
`Expenses Type`, `Total Amount`, `Average`, `Max`, `Min`,
`Num. Transactions`. -/
structure ESRow where
  expensesType : String
  totalAmount : ℚ
  average : ℚ
  max : ℚ
  min : ℚ
  numTransactions : ℕ
deriving DecidableEq

/-- Per-row treatment of `expenses_summary`: the row survives when the
client matches, the parsed date lies in the inclusive range, the parsed
amount is negative (NaN amounts and NaT dates compare false) and — at the
`groupby` stage, whose default `dropna=True` drops the null key produced by
`map` for unmapped codes — the mcc code is a key of the lookup. -/
def esRowFn (mcc_codes : List (String × String)) (c : ℤ) (s e : Date)
    (r : Row) : Option (String × ℚ) :=
  match toDatetime r.date, toNumeric (replaceDollar r.amount) with
  | some d, some q =>
      if r.client_id == c && dateLe s d && dateLe d e && decide (q < 0) then
        match List.lookup r.mcc mcc_codes with
        | some name => some (name, q)
        | none => none
      else none
  | _, _ => none

/-- The filtered, categorised expense rows of `expenses_summary` as
(category name, amount) pairs. -/
def esFiltered (mcc_codes : List (String × String)) (df : List Row) (c : ℤ)
    (s e : Date) : List (String × ℚ) :=
  df.filterMap (esRowFn mcc_codes c s e)

/-- One `expenses_summary` output row for key `k` over the group's raw
amounts `g`: each statistic is computed on the signed amounts, rounded to 2
decimals, then replaced by its absolute value (lines 147-156); the count is
exact. -/
def mkESRow (k : String) (g : List ℚ) : ESRow :=
  { expensesType := k
    totalAmount := |round2 g.sum|
    average := |round2 (g.sum / (g.length : ℚ))|
    max := |round2 (listMax g)|
    min := |round2 (listMin g)|
    numTransactions := g.length }

/-- Model of `expenses_summary` (data_functions.py, lines 79-182).  The
whole `date` column is parsed by `pd.to_datetime` *without*
`errors="coerce"` before any filtering (line 125), so a single unparsable
date anywhere in the input raises; likewise the start/end bounds must
parse.  Groups are the distinct mapped category names, sorted ascending;
the chart side effect is out of scope. -/
def expenses_summary (mcc_codes : List (String × String)) (df : List Row)
    (client_id : ℤ) (start_date end_date : String) :
    Except String (List ESRow) :=
  if df.all (fun r => (toDatetime r.date).isSome) then
    match toDatetime start_date, toDatetime end_date with
    | some s, some e =>
        let fl := esFiltered mcc_codes df client_id s e
        .ok ((groupKeys Prod.fst fl).map (fun k =>
          mkESRow k ((fl.filter (fun p => p.1 == k)).map Prod.snd)))
    | _, _ => .error "ValueError: unparsable start or end date"
  else .error "ValueError: unparsable date in date column"

/-- A pandas float cell as produced by the `% Savings` computation: a finite
value, an infinity (from `x / 0` with `x ≠ 0`), or NaN (from `0 / 0`). -/
inductive PValue where
  | fin (q : ℚ)
  | posInf
  | negInf
  | nan
deriving DecidableEq

/-- IEEE-style division as performed by pandas on float columns: finite
quotient when the divisor is nonzero, `±inf` for `x / 0` with `x ≠ 0`, NaN
for `0 / 0`. -/
def pdDiv (a b : ℚ) : PValue :=
  if b = 0 then (if a = 0 then .nan else if 0 < a then .posInf else .negInf)
  else .fin (a / b)

/-- Model of `Series.fillna(0)`: replaces NaN only — infinities pass
through. -/
def pFillna0 : PValue → PValue
  | .nan => .fin 0
  | v => v

/-- Multiplication of a pandas float cell by the positive constant 100. -/
def pMul100 : PValue → PValue
  | .fin q => .fin (q * 100)
  | v => v

/-- Rounding of a pandas float cell to 2 decimals; NaN and infinities are
unchanged by `round`. -/
def pRound2 : PValue → PValue
  | .fin q => .fin (round2 q)
  | v => v

/-- The `% Savings` column (lines 259 and 262):
`((net / inflows).fillna(0) * 100).round(2)` on the unrounded sums. -/
def savingsOf (net inflows : ℚ) : PValue :=
  pRound2 (pMul100 (pFillna0 (pdDiv net inflows)))

/-- An output row of `cash_flow_summary`, columns in the order `Date`,
`Inflows`, `Outflows`, `Net Cash Flow`, `% Savings`. -/
structure CFRow where
  date : String
  inflows : ℚ
  outflows : ℚ
  net : ℚ
  savings : PValue
deriving DecidableEq

/-- Per-row filter of `cash_flow_summary` (lines 233-238): client match and
parsed-date range; rows whose date coerces to NaT are dropped (NaT compares
false, and `dropna(subset=["date"])` removes any stragglers).  The parsed
amount is kept as an optional value (NaN survives the filter). -/
def cfRowFn (c : ℤ) (s e : Date) (r : Row) : Option (Date × Option ℚ) :=
  match toDatetime r.date with
  | some d =>
      if r.client_id == c && dateLe s d && dateLe d e then
        some (d, toNumeric (replaceDollar r.amount))
      else none
  | none => none

/-- The filtered rows of `cash_flow_summary` as (parsed date, parsed
amount) pairs. -/
def cfFiltered (df : List Row) (c : ℤ) (s e : Date) :
    List (Date × Option ℚ) :=
  df.filterMap (cfRowFn c s e)

/-- Contribution of one parsed amount to `Inflows`
(`x.loc[x["amount"] >= 0, "amount"].sum()`): NaN is excluded by the mask. -/
def inflowOf : Option ℚ → ℚ
  | some q => if 0 ≤ q then q else 0
  | none => 0

/-- Contribution of one parsed amount to `Outflows`
(`x.loc[x["amount"] < 0, "amount"].abs().sum()`). -/
def outflowOf : Option ℚ → ℚ
  | some q => if q < 0 then -q else 0
  | none => 0

/-- Period label of one row date (lines 242-248): `YYYY-MM` when grouping
monthly, otherwise the `YYYY-MM-DD` end of the calendar week (`W-SUN`). -/
def cfLabel (monthly : Bool) (d : Date) : String :=
  if monthly then fmtYM d else fmtYMD (weekEnd d)

/-- One `cash_flow_summary` output row for label `k` over the group's parsed
amounts `g`: inflow/outflow sums, net on the unrounded sums, `% Savings` on
the unrounded net and inflows, then every numeric column rounded. -/
def mkCFRow (k : String) (g : List (Option ℚ)) : CFRow :=
  let I := (g.map inflowOf).sum
  let O := (g.map outflowOf).sum
  { date := k
    inflows := round2 I
    outflows := round2 O
    net := round2 (I - O)
    savings := savingsOf (I - O) I }

/-- The grouped half of `cash_flow_summary` once the period granularity is
fixed: label every filtered row, group by label (sorted ascending, as both
`groupby` and the final `sort_values` do), and build the four metrics per
bucket. -/
def cashFlowBuckets (df : List Row) (c : ℤ) (s e : Date) (monthly : Bool) :
    List CFRow :=
  let labeled := (cfFiltered df c s e).map (fun p => (cfLabel monthly p.1, p.2))
  (groupKeys Prod.fst labeled).map (fun k =>
    mkCFRow k ((labeled.filter (fun p => p.1 == k)).map Prod.snd))

/-- Model of `cash_flow_summary` (data_functions.py, lines 185-273): the
start/end bounds are parsed with raising `pd.to_datetime`; the period is
monthly exactly when `(end - start).days > 60`, weekly otherwise.  When the
client/date filter matches no rows, `groupby("date").apply` runs the lambda
on zero groups and returns an empty frame without `Inflows`/`Outflows`
columns, so the read `summary["Inflows"]` at line 258 raises `KeyError` —
modelled as the error branch on an empty `cfFiltered`. -/
def cash_flow_summary (df : List Row) (client_id : ℤ)
    (start_date end_date : String) : Except String (List CFRow) :=
  match toDatetime start_date, toDatetime end_date with
  | some s, some e =>
      if (cfFiltered df client_id s e).isEmpty then
        .error "KeyError: Inflows"
      else
        .ok (cashFlowBuckets df client_id s e (decide (60 < serial e - serial s)))
  | _, _ => .error "ValueError: unparsable start or end date"

/-- A row of the dataset as seen by `run_agent`: the `date` column is
compared directly with `datetime` values there, so it is modelled as an
already-parsed date (the out-of-scope loading step produced it). -/
structure ARow where
  client_id : ℤ
  date : Date
deriving DecidableEq

/-- The result record of `run_agent`. -/
structure AgentResult where
  start_date : String
  end_date : String
  client_id : ℤ
  create_report : Bool
deriving DecidableEq

/-- Model of `create_pdf_report` (agent.py, lines 55-72): only the output
path is data; the PDF bytes and the filesystem write are out of scope. -/
def create_pdf_report (client_id : ℤ) (start_date end_date : Date)
    (_report_content : String) (output_folder : String) : String :=
  output_folder ++ "reporte_cliente_" ++ toString client_id ++ "_" ++
    fmtCompact start_date ++ "_" ++ fmtCompact end_date ++ ".pdf"

/-- The row filter of `run_agent` (lines 108-110). -/
def agentMask (c : ℤ) (s e : Date) (r : ARow) : Bool :=
  r.client_id == c && dateLe s r.date && dateLe r.date e

/-- The narrative prompt template of `run_agent` (lines 118-126). -/
def agentPrompt (c : ℤ) (s e : Date) : String :=
  "Cliente " ++ toString c ++
    " solicita un informe detallado sobre datos financieros y de transacciones relevantes entre " ++
    fmtYMD s ++ " y " ++ fmtYMD e ++ ". El informe debe incluir: \n" ++
    "- Resumen de ingresos y gastos.\n" ++
    "- Análisis de inversiones y pagos realizados.\n" ++
    "- Datos organizados por meses y totales anuales.\n" ++
    "- Visualizaciones de las tendencias en el tiempo.\n" ++
    "Asegúrate de usar todos los datos disponibles para proporcionar un resumen claro y relevante."

/-- Model of `run_agent` (agent.py, lines 74-141).  The chat model is the
opaque parameter `predict`; the returned pair carries the result record and
the PDF path written (`none` when no report was created).  A date-extraction
failure — `(None, None)` or an error raised inside `extract_dates` — leaves
`run_agent` with a raised `ValueError`. -/
def run_agent (predict : String → String) (df : List ARow) (client_id : ℤ)
    (input : String) : Except String (AgentResult × Option String) :=
  match extract_dates input with
  | .error msg => .error msg
  | .ok none => .error "Fechas no válidas en el prompt."
  | .ok (some (start_date, end_date)) =>
      let df_client := df.filter (agentMask client_id start_date end_date)
      let create_report := !df_client.isEmpty
      if create_report then
        let report_content := predict (agentPrompt client_id start_date end_date)
        let pdf_path := create_pdf_report client_id start_date end_date report_content "reports/"
        .ok (⟨fmtYMD start_date, fmtYMD end_date, client_id, true⟩, some pdf_path)
      else
        .ok (⟨fmtYMD start_date, fmtYMD end_date, client_id, false⟩, none)

/-- The client-and-date-range restriction of a raw input row, as used to
state the filter-idempotence property: client match plus inclusive parsed
date range (rows whose dates do not parse belong to no range). -/
def parsedRangeMask (c : ℤ) (sS eS : String) (r : Row) : Bool :=
  match toDatetime sS, toDatetime eS, toDatetime r.date with
  | some s, some e, some d => r.client_id == c && dateLe s d && dateLe d e
  | _, _, _ => false

/-- A rational is a whole number of cents. -/
def IsCents (q : ℚ) : Prop := ∃ n : ℤ, q = (n : ℚ) / 100

/-! Helper lemmas about the rounding model. -/

theorem rndHE_intCast (n : ℤ) : rndHE (n : ℚ) = n := by
  unfold rndHE
  norm_num [Int.floor_intCast]

theorem le_rndHE (q : ℚ) : ⌊q⌋ ≤ rndHE q := by
  unfold rndHE
  split_ifs <;> omega

theorem rndHE_le (q : ℚ) : rndHE q ≤ ⌊q⌋ + 1 := by
  unfold rndHE
  split_ifs <;> omega

theorem rndHE_mono {p q : ℚ} (h : p ≤ q) : rndHE p ≤ rndHE q := by
  rcases lt_or_eq_of_le (Int.floor_le_floor h) with hf | hf
  · calc rndHE p ≤ ⌊p⌋ + 1 := rndHE_le p
      _ ≤ ⌊q⌋ := by omega
      _ ≤ rndHE q := le_rndHE q
  · unfold rndHE
    rw [hf]
    have hr : p - (⌊q⌋ : ℚ) ≤ q - (⌊q⌋ : ℚ) := by linarith
    split_ifs with h1 h2 h3 h4 h5 h6 h7 h8 <;> try omega
    all_goals (exfalso; try linarith)

theorem round2_mono {p q : ℚ} (h : p ≤ q) : round2 p ≤ round2 q := by
  unfold round2
  have : rndHE (p * 100) ≤ rndHE (q * 100) := rndHE_mono (by linarith)
  have hc : ((rndHE (p * 100) : ℚ)) ≤ ((rndHE (q * 100) : ℚ)) := by exact_mod_cast this
  linarith

theorem round2_zero : round2 0 = 0 := by
  have h : ((0 : ℚ) * 100) = ((0 : ℤ) : ℚ) := by norm_num
  unfold round2
  rw [h, rndHE_intCast]
  norm_num

theorem round2_nonpos {q : ℚ} (h : q ≤ 0) : round2 q ≤ 0 := by
  have := round2_mono h
  rwa [round2_zero] at this

theorem round2_cents {n : ℤ} : round2 ((n : ℚ) / 100) = (n : ℚ) / 100 := by
  unfold round2
  rw [div_mul_cancel₀ _ (by norm_num : (100 : ℚ) ≠ 0), rndHE_intCast]

theorem isCents_zero : IsCents 0 := ⟨0, by norm_num⟩

theorem IsCents.add {a b : ℚ} (ha : IsCents a) (hb : IsCents b) :
    IsCents (a + b) := by
  obtain ⟨m, rfl⟩ := ha
  obtain ⟨n, rfl⟩ := hb
  exact ⟨m + n, by push_cast; ring⟩

theorem IsCents.sub {a b : ℚ} (ha : IsCents a) (hb : IsCents b) :
    IsCents (a - b) := by
  obtain ⟨m, rfl⟩ := ha
  obtain ⟨n, rfl⟩ := hb
  exact ⟨m - n, by push_cast; ring⟩

theorem isCents_sum {l : List ℚ} (h : ∀ q ∈ l, IsCents q) : IsCents l.sum := by
  induction l with
  | nil => simpa using isCents_zero
  | cons a t ih =>
      simp only [List.sum_cons]
      exact (h a (by simp)).add (ih (fun q hq => h q (by simp [hq])))

theorem round2_of_isCents {q : ℚ} (h : IsCents q) : round2 q = q := by
  obtain ⟨n, rfl⟩ := h
  exact round2_cents

/-! Helper lemmas about sorting, grouping and list statistics. -/

theorem mem_insertStr {x a : String} {l : List String} :
    x ∈ insertStr a l ↔ x = a ∨ x ∈ l := by
  induction l with
  | nil => simp [insertStr]
  | cons b t ih =>
      unfold insertStr
      split_ifs
      · simp
      · simp [ih]
        tauto

theorem mem_sortStrings {x : String} {l : List String} :
    x ∈ sortStrings l ↔ x ∈ l := by
  induction l with
  | nil => simp [sortStrings]
  | cons a t ih => simp [sortStrings, mem_insertStr, ih]

theorem mem_groupKeys {f : α → String} {l : List α} {k : String} :
    k ∈ groupKeys f l ↔ ∃ a ∈ l, f a = k := by
  simp [groupKeys, mem_sortStrings, List.mem_dedup, List.mem_map]

theorem group_ne_nil {f : α → String} {l : List α} {k : String}
    (h : k ∈ groupKeys f l) : l.filter (fun a => f a == k) ≠ [] := by
  obtain ⟨a, ha, hk⟩ := mem_groupKeys.1 h
  have hmem : a ∈ l.filter (fun a => f a == k) := by
    simp [List.mem_filter, ha, hk]
  exact List.ne_nil_of_mem hmem

theorem listMax_mem : ∀ {l : List ℚ}, l ≠ [] → listMax l ∈ l
  | [], h => absurd rfl h
  | [q], _ => by simp [listMax]
  | q :: r :: t, _ => by
      unfold listMax
      rcases le_total q (listMax (r :: t)) with h | h
      · rw [max_eq_right h]
        exact List.mem_cons_of_mem _ (listMax_mem (by simp))
      · rw [max_eq_left h]
        simp

theorem listMin_mem : ∀ {l : List ℚ}, l ≠ [] → listMin l ∈ l
  | [], h => absurd rfl h
  | [q], _ => by simp [listMin]
  | q :: r :: t, _ => by
      unfold listMin
      rcases le_total q (listMin (r :: t)) with h | h
      · rw [min_eq_left h]
        simp
      · rw [min_eq_right h]
        exact List.mem_cons_of_mem _ (listMin_mem (by simp))

theorem listMin_le : ∀ {l : List ℚ} {q : ℚ}, q ∈ l → listMin l ≤ q
  | [], _, h => by simp at h
  | [p], q, h => by simp at h; simp [listMin, h]
  | p :: r :: t, q, h => by
      unfold listMin
      rcases List.mem_cons.1 h with rfl | h2
      · exact min_le_left _ _
      · exact le_trans (min_le_right _ _) (listMin_le h2)

/-! Helper lemmas about the row filters. -/

theorem filter_filter_self {α : Type _} (p : α → Bool) (l : List α) :
    (l.filter p).filter p = l.filter p := by
  induction l with
  | nil => rfl
  | cons a t ih =>
      by_cases h : p a = true
      · simp [List.filter, h, ih]
      · simp [List.filter, Bool.of_not_eq_true h, ih]

theorem filterMap_filter_of {α β : Type _} {p : α → Bool} {f : α → Option β}
    (h : ∀ a, p a = false → f a = none) (l : List α) :
    (l.filter p).filterMap f = l.filterMap f := by
  induction l with
  | nil => rfl
  | cons a t ih =>
      by_cases hp : p a = true
      · simp [List.filter, hp, List.filterMap_cons, ih]
      · have hn : f a = none := h a (Bool.of_not_eq_true hp)
        simp [List.filter, Bool.of_not_eq_true hp, List.filterMap_cons, hn, ih]

theorem cfRowFn_none_of_mask {c : ℤ} {sS eS : String} {s e : Date} {r : Row}
    (hs : toDatetime sS = some s) (he : toDatetime eS = some e)
    (h : parsedRangeMask c sS eS r = false) : cfRowFn c s e r = none := by
  unfold parsedRangeMask at h
  unfold cfRowFn
  cases hd : toDatetime r.date with
  | none => rfl
  | some d =>
      rw [hs, he, hd] at h
      have hb : (r.client_id == c && dateLe s d && dateLe d e) = false := h
      simp [hb]

theorem esRowFn_none_of_mask {mcc : List (String × String)} {c : ℤ}
    {sS eS : String} {s e : Date} {r : Row}
    (hs : toDatetime sS = some s) (he : toDatetime eS = some e)
    (h : parsedRangeMask c sS eS r = false) : esRowFn mcc c s e r = none := by
  unfold parsedRangeMask at h
  unfold esRowFn
  cases hd : toDatetime r.date with
  | none => rfl
  | some d =>
      rw [hs, he, hd] at h
      have hb : (r.client_id == c && dateLe s d && dateLe d e) = false := h
      cases ha : toNumeric (replaceDollar r.amount) with
      | none => rfl
      | some q =>
          have hb2 : (r.client_id == c && dateLe s d && dateLe d e &&
              decide (q < 0)) = false := by
            simp only [Bool.and_eq_false_iff] at hb ⊢
            tauto
          simp [hb2]

theorem esRowFn_some {mcc : List (String × String)} {c : ℤ} {s e : Date}
    {r : Row} {k : String} {q : ℚ}
    (h : esRowFn mcc c s e r = some (k, q)) :
    q < 0 ∧ List.lookup r.mcc mcc = some k ∧
      toNumeric (replaceDollar r.amount) = some q := by
  unfold esRowFn at h
  cases hd : toDatetime r.date with
  | none => rw [hd] at h; exact absurd h (by simp)
  | some d =>
      rw [hd] at h
      cases ha : toNumeric (replaceDollar r.amount) with
      | none => rw [ha] at h; exact absurd h (by simp)
      | some q0 =>
          rw [ha] at h
          have h2 : (if (r.client_id == c && dateLe s d && dateLe d e &&
              decide (q0 < 0)) = true then
                (match List.lookup r.mcc mcc with
                 | some name => some (name, q0)
                 | none => none)
              else none) = some (k, q) := h
          by_cases hc : (r.client_id == c && dateLe s d && dateLe d e &&
              decide (q0 < 0)) = true
          · rw [if_pos hc] at h2
            cases hl : List.lookup r.mcc mcc with
            | none => rw [hl] at h2; exact absurd h2 (by simp)
            | some name =>
                rw [hl] at h2
                have hkq : name = k ∧ q0 = q := by simpa using h2
                obtain ⟨hk1, hq1⟩ := hkq
                subst hk1
                subst hq1
                have hneg : q0 < 0 := by
                  simp only [Bool.and_eq_true, decide_eq_true_eq] at hc
                  exact hc.2
                exact ⟨hneg, rfl, rfl⟩
          · rw [if_neg hc] at h2
            exact absurd h2 (by simp)

theorem cfRowFn_some {c : ℤ} {s e : Date} {r : Row} {d : Date}
    {a : Option ℚ} (h : cfRowFn c s e r = some (d, a)) :
    a = toNumeric (replaceDollar r.amount) := by
  unfold cfRowFn at h
  cases hd : toDatetime r.date with
  | none => rw [hd] at h; exact absurd h (by simp)
  | some d0 =>
      rw [hd] at h
      have h2 : (if (r.client_id == c && dateLe s d0 && dateLe d0 e) = true then
          some (d0, toNumeric (replaceDollar r.amount)) else none) = some (d, a) := h
      by_cases hc : (r.client_id == c && dateLe s d0 && dateLe d0 e) = true
      · rw [if_pos hc] at h2
        have hda : d0 = d ∧ toNumeric (replaceDollar r.amount) = a := by
          simpa using h2
        exact hda.2.symm
      · rw [if_neg hc] at h2
        exact absurd h2 (by simp)

theorem lookup_mem {l : List (String × String)} {k v : String}
    (h : List.lookup k l = some v) : (k, v) ∈ l := by
  induction l with
  | nil => simp [List.lookup] at h
  | cons p t ih =>
      rw [List.lookup] at h
      by_cases hk : (k == p.1) = true
      · rw [hk] at h
        have hv : p.2 = v := by simpa using h
        have hk2 : k = p.1 := by simpa using hk
        subst hv
        rw [hk2]
        simp
      · have hkf : (k == p.1) = false := by simpa using hk
        rw [hkf] at h
        exact List.mem_cons_of_mem _ (ih h)

/-! Helper lemmas about the date extractor. -/

theorem digit_le9 {c : Char} (h : c.isDigit = true) : c.toNat - 48 ≤ 9 := by
  have h2 : c.val ≤ 57 := by
    simp [Char.isDigit] at h
    exact h.2
  have h3 : c.val.toNat ≤ 57 := by exact_mod_cast h2
  simp [Char.toNat]
  omega

theorem digitsVal4_le {c1 c2 c3 c4 : Char} (h1 : c1.isDigit = true)
    (h2 : c2.isDigit = true) (h3 : c3.isDigit = true) (h4 : c4.isDigit = true) :
    digitsVal [c1, c2, c3, c4] ≤ 9999 := by
  have b1 := digit_le9 h1
  have b2 := digit_le9 h2
  have b3 := digit_le9 h3
  have b4 := digit_le9 h4
  simp [digitsVal, List.foldl]
  omega

theorem findYear_le_9999 : ∀ {cs : List Char} {y : ℕ},
    findYear cs = some y → y ≤ 9999 := by
  intro cs
  induction cs with
  | nil => intro y h; simp [findYear] at h
  | cons c1 t ih =>
      intro y h
      rcases t with _ | ⟨c2, _ | ⟨c3, _ | ⟨c4, rest⟩⟩⟩
      · simp [findYear] at h
      · simp [findYear] at h
      · simp [findYear] at h
      · rw [findYear] at h
        by_cases hd : (c1.isDigit && c2.isDigit && c3.isDigit && c4.isDigit) = true
        · have h2 : (if (c1.isDigit && c2.isDigit && c3.isDigit && c4.isDigit) = true
              then some (digitsVal [c1, c2, c3, c4]) else
                findYear (c2 :: c3 :: c4 :: rest)) = some y := h
          rw [if_pos hd] at h2
          obtain rfl : digitsVal [c1, c2, c3, c4] = y := by simpa using h2
          simp only [Bool.and_eq_true] at hd
          exact digitsVal4_le hd.1.1.1 hd.1.1.2 hd.1.2 hd.2
        · have h2 : (if (c1.isDigit && c2.isDigit && c3.isDigit && c4.isDigit) = true
              then some (digitsVal [c1, c2, c3, c4]) else
                findYear (c2 :: c3 :: c4 :: rest)) = some y := h
          rw [if_neg hd] at h2
          exact ih h2

theorem scanMonths_of_year {cs : List Char} {y : ℕ}
    (h : findYear cs = some y) :
    ∀ l : List (String × ℕ), scanMonths cs l =
      (l.find? (fun p => hasSubstr p.1.toList cs)).map Prod.snd := by
  intro l
  induction l with
  | nil => rfl
  | cons p rest ih =>
      obtain ⟨name, n⟩ := p
      unfold scanMonths
      by_cases hs : hasSubstr name.toList cs = true
      · rw [if_pos hs, if_pos (by simp [h])]
        rw [List.find?_cons_of_pos _ (by simpa using hs)]
        rfl
      · rw [if_neg hs, List.find?_cons_of_neg _ (by simpa using hs)]
        exact ih

theorem scanMonths_of_no_year {cs : List Char}
    (h : findYear cs = none) :
    ∀ l : List (String × ℕ), scanMonths cs l = none := by
  intro l
  induction l with
  | nil => rfl
  | cons p rest ih =>
      obtain ⟨name, n⟩ := p
      unfold scanMonths
      by_cases hs : hasSubstr name.toList cs = true
      · rw [if_pos hs, if_neg (by simp [h])]
        exact ih
      · rw [if_neg hs]
        exact ih

theorem hasSubstr_iff {n : List Char} : ∀ {h : List Char},
    hasSubstr n h = true ↔ n <:+: h := by
  intro h
  induction h with
  | nil =>
      simp only [hasSubstr, List.isEmpty_iff, List.infix_nil]
  | cons c t ih =>
      rw [hasSubstr, Bool.or_eq_true, List.infix_cons_iff, ih]
      constructor
      · rintro (hp | hi)
        · exact Or.inl (List.isPrefixOf_iff_prefix.1 hp)
        · exact Or.inr hi
      · rintro (hp | hi)
        · exact Or.inl (List.isPrefixOf_iff_prefix.2 hp)
        · exact Or.inr hi

theorem daysInMonth_ge_28 (y m : ℕ) : 28 ≤ daysInMonth y m := by
  unfold daysInMonth
  split_ifs <;> norm_num

theorem monthEndDay_le_daysInMonth (y m : ℕ) :
    monthEndDay m ≤ daysInMonth y m := by
  unfold monthEndDay daysInMonth
  split_ifs <;> norm_num

theorem monthEndDay_pos (m : ℕ) : 1 ≤ monthEndDay m := by
  unfold monthEndDay
  split_ifs <;> norm_num

theorem mkDatetime_eq_some {y m d : ℕ} (hy1 : 1 ≤ y) (hy2 : y ≤ 9999)
    (hm1 : 1 ≤ m) (hm2 : m ≤ 12) (hd1 : 1 ≤ d) (hd2 : d ≤ daysInMonth y m) :
    mkDatetime y m d = some ⟨y, m, d⟩ := by
  unfold mkDatetime
  rw [if_pos]
  simp only [Bool.and_eq_true, decide_eq_true_eq]
  omega

theorem mkDatetime_year_zero {m d : ℕ} : mkDatetime 0 m d = none := by
  unfold mkDatetime
  rw [if_neg]
  simp

theorem monthMapping_bounds : ∀ p ∈ monthMapping, 1 ≤ p.2 ∧ p.2 ≤ 12 := by
  decide

/-- C5 (amended): `extract_dates` behaves as follows.  If some ordinal-month
word of the table occurs as a substring and the text contains four
consecutive digits, the first matching table entry (in iteration order) and
the first digit group `y` are used: for `y ≥ 1` the result is
`(y-month-01, y-month-end)` with the fixed month-end rule (February 28,
thirty days for April/June/September/November, otherwise 31); for the
digit group `0000` the `datetime` constructor raises.  Otherwise, if the
text contains exactly two `YYYY-MM-DD` digit patterns, they are returned in
source order when both are valid calendar dates, and `strptime` raises when
either is invalid; with zero, one, or more than two matches the result is
`(None, None)`. -/
theorem claim_c5_extract_dates (prompt : String) :
    (∀ y p, findYear prompt.toList = some y →
        monthMapping.find? (fun q => hasSubstr q.1.toList prompt.toList) = some p →
        (1 ≤ y →
          extract_dates prompt =
            .ok (some (⟨y, p.2, 1⟩, ⟨y, p.2, monthEndDay p.2⟩))) ∧
        (y = 0 → ∃ msg, extract_dates prompt = .error msg)) ∧
    ((findYear prompt.toList = none ∨
        monthMapping.find? (fun q => hasSubstr q.1.toList prompt.toList) = none) →
      (∀ t1 t2, findDates prompt.toList = [t1, t2] →
          (∀ d1 d2, mkDatetime t1.1 t1.2.1 t1.2.2 = some d1 →
              mkDatetime t2.1 t2.2.1 t2.2.2 = some d2 →
              extract_dates prompt = .ok (some (d1, d2))) ∧
          ((mkDatetime t1.1 t1.2.1 t1.2.2 = none ∨
              mkDatetime t2.1 t2.2.1 t2.2.2 = none) →
            ∃ msg, extract_dates prompt = .error msg)) ∧
      ((∀ t1 t2, findDates prompt.toList ≠ [t1, t2]) →
        extract_dates prompt = .ok none)) := by
  constructor
  · intro y p hy hp
    have hpm : p ∈ monthMapping := List.mem_of_find?_eq_some hp
    have hm1 : 1 ≤ p.2 := (monthMapping_bounds p hpm).1
    have hm2 : p.2 ≤ 12 := (monthMapping_bounds p hpm).2
    have hscan : scanMonths prompt.toList monthMapping = some p.2 := by
      rw [scanMonths_of_year hy, hp]
      rfl
    constructor
    · intro hy1
      have hy2 : y ≤ 9999 := findYear_le_9999 hy
      have hmk1 : mkDatetime y p.2 1 = some ⟨y, p.2, 1⟩ :=
        mkDatetime_eq_some hy1 hy2 hm1 hm2 (le_refl 1)
          (le_trans (by norm_num) (daysInMonth_ge_28 y p.2))
      have hmk2 : mkDatetime y p.2 (monthEndDay p.2) =
          some ⟨y, p.2, monthEndDay p.2⟩ :=
        mkDatetime_eq_some hy1 hy2 hm1 hm2 (monthEndDay_pos p.2)
          (monthEndDay_le_daysInMonth y p.2)
      simp only [extract_dates, hscan, hy, hmk1, hmk2]
    · intro hy0
      subst hy0
      refine ⟨"ValueError: year is out of range", ?_⟩
      simp only [extract_dates, hscan, hy, mkDatetime_year_zero]
  · intro hno
    have hscan : scanMonths prompt.toList monthMapping = none := by
      rcases hno with h | h
      · exact scanMonths_of_no_year h _
      · rcases hy : findYear prompt.toList with _ | y
        · exact scanMonths_of_no_year hy _
        · rw [scanMonths_of_year hy, h]
          rfl
    refine ⟨?_, ?_⟩
    · intro t1 t2 hfd
      constructor
      · intro d1 d2 h1 h2
        simp only [extract_dates, hscan, isoStrategy, hfd, h1, h2]
      · intro hbad
        refine ⟨"ValueError: time data does not match format", ?_⟩
        rcases hbad with hb | hb
        · simp only [extract_dates, hscan, isoStrategy, hfd, hb]
        · rcases h1 : mkDatetime t1.1 t1.2.1 t1.2.2 with _ | d1
          · simp only [extract_dates, hscan, isoStrategy, hfd, h1]
          · simp only [extract_dates, hscan, isoStrategy, hfd, h1, hb]
    · intro hne
      cases hfd : findDates prompt.toList with
      | nil => simp only [extract_dates, hscan, isoStrategy, hfd]
      | cons a tl =>
          cases tl with
          | nil => simp only [extract_dates, hscan, isoStrategy, hfd]
          | cons b tl2 =>
              cases tl2 with
              | nil => exact absurd hfd (hne a b)
              | cons c tl3 =>
                  simp only [extract_dates, hscan, isoStrategy, hfd]

/-- Witness for C5: on the spec's own example prompt, the month branch of
the theorem yields February 2021 with the fixed 28-day end. -/
theorem claim_c5_extract_dates_witness :
    extract_dates "segundo mes de 2021" =
      .ok (some (⟨2021, 2, 1⟩, ⟨2021, 2, 28⟩)) :=
  ((claim_c5_extract_dates "segundo mes de 2021").1 2021 ("segundo", 2)
    (by decide) (by decide)).1 (by norm_num)

/-- Counterexample for C5 as frozen: a prompt with no month word and exactly
two `YYYY-MM-DD` pattern matches, the first being the invalid calendar date
2021-02-29, makes `extract_dates` raise (model: `Except.error`) instead of
returning the pair as the claim states. -/
theorem claim_c5_extract_dates_cex :
    extract_dates "informe del 2021-02-29 al 2021-03-05" =
      .error "ValueError: time data does not match format" := by rfl

/-- C10 (amended): substring month matching in table order makes "décimo"
(month 10) shadow "undécimo" and "duodécimo".  For any prompt containing
"undécimo" or "duodécimo", none of the eighteen table entries for months
1-9 as a substring, and a four-digit group whose first occurrence encodes
`y ≥ 1`, `extract_dates` returns the October range `(y-10-01, y-10-31)` —
not month 11 or 12; when the first digit group is `0000` the `datetime`
constructor raises instead. -/
theorem claim_c10_decimo_shadowing (prompt : String) (y : ℕ)
    (hword : hasSubstr "undécimo".toList prompt.toList = true ∨
      hasSubstr "duodécimo".toList prompt.toList = true)
    (hearlier : ∀ p ∈ monthMapping.take 18,
      hasSubstr p.1.toList prompt.toList = false)
    (hy : findYear prompt.toList = some y) (hy1 : 1 ≤ y) :
    extract_dates prompt = .ok (some (⟨y, 10, 1⟩, ⟨y, 10, 31⟩)) := by
  have hdec : hasSubstr "décimo".toList prompt.toList = true := by
    rcases hword with h | h
    · exact hasSubstr_iff.2
        ((by decide : "décimo".toList <:+: "undécimo".toList).trans
          (hasSubstr_iff.1 h))
    · exact hasSubstr_iff.2
        ((by decide : "décimo".toList <:+: "duodécimo".toList).trans
          (hasSubstr_iff.1 h))
  have hfind : monthMapping.find?
      (fun q => hasSubstr q.1.toList prompt.toList) = some ("décimo", 10) := by
    have hsplit : monthMapping = monthMapping.take 18 ++ monthMapping.drop 18 :=
      (List.take_append_drop _ _).symm
    rw [hsplit, List.find?_append]
    have hnone : (monthMapping.take 18).find?
        (fun q => hasSubstr q.1.toList prompt.toList) = none :=
      List.find?_eq_none.2 (fun x hx => by
        intro hcon
        have hc2 : hasSubstr x.1.toList prompt.toList = true := hcon
        rw [hearlier x hx] at hc2
        exact Bool.false_ne_true hc2)
    rw [hnone]
    have hdrop : monthMapping.drop 18 =
        [("décimo", 10), ("tenth", 10), ("undécimo", 11), ("eleventh", 11),
         ("duodécimo", 12), ("twelfth", 12)] := by decide
    rw [hdrop, List.find?_cons_of_pos _ (by simpa using hdec)]
    rfl
  have hscan : scanMonths prompt.toList monthMapping = some 10 := by
    rw [scanMonths_of_year hy, hfind]
    rfl
  have hy2 : y ≤ 9999 := findYear_le_9999 hy
  have hdim : daysInMonth y 10 = 31 := by simp [daysInMonth]
  have hmk1 : mkDatetime y 10 1 = some ⟨y, 10, 1⟩ :=
    mkDatetime_eq_some hy1 hy2 (by norm_num) (by norm_num) (le_refl 1)
      (le_trans (by norm_num) (daysInMonth_ge_28 y 10))
  have hmk2 : mkDatetime y 10 31 = some ⟨y, 10, 31⟩ :=
    mkDatetime_eq_some hy1 hy2 (by norm_num) (by norm_num) (by norm_num)
      (by rw [hdim])
  have hend : monthEndDay 10 = 31 := by decide
  simp only [extract_dates, hscan, hy, hend, hmk1, hmk2]

/-- Witness for C10: a prompt containing "duodécimo" (twelfth) and the year
2021, with no earlier month word, yields the October 2021 range. -/
theorem claim_c10_decimo_shadowing_witness :
    extract_dates "informe del duodécimo mes de 2021" =
      .ok (some (⟨2021, 10, 1⟩, ⟨2021, 10, 31⟩)) :=
  claim_c10_decimo_shadowing _ 2021 (Or.inr (by decide)) (by decide)
    (by decide) (by norm_num)

/-- Counterexample for C10 as frozen: the prompt contains "undécimo" and the
four-digit number 2021, and none of the earlier table entries, yet
`extract_dates` raises — the first four-digit group is "0000", and
`datetime(0, 10, 1)` is out of range — instead of returning an October
range. -/
theorem claim_c10_decimo_shadowing_cex :
    extract_dates "undécimo 0000 2021" =
      .error "ValueError: year is out of range" := by rfl

/-- C3 (amended): `earnings_and_expenses` returns a single-row table with
fields in the order Earnings, Expenses, where Earnings is the rounded sum of
the per-row rounded positive buckets (each parsed amount if positive else 0,
rounded to 2 decimals before summation — line 48 rounds row-wise before the
sum) and Expenses likewise for the negative buckets; on the spec's concrete
example the result is Earnings = 100, Expenses = -40. -/
theorem claim_c3_earnings_and_expenses :
    (∀ (df : List Row) (c : ℤ) (sS eS : String),
        earnings_and_expenses df c sS eS =
          { Earnings := round2 (((df.filter (eeMask c sS eS)).map
              (fun r => round2 (posBucket (toNumeric (replaceDollar r.amount))))).sum),
            Expenses := round2 (((df.filter (eeMask c sS eS)).map
              (fun r => round2 (negBucket (toNumeric (replaceDollar r.amount))))).sum) }) ∧
    earnings_and_expenses
      [⟨1, "2021-05-02", "$100", "x"⟩, ⟨1, "2021-05-10", "-$40", "x"⟩]
      1 "2021-05-01" "2021-05-31" = ⟨100, -40⟩ := by
  constructor
  · intro df c sS eS
    unfold earnings_and_expenses
    simp only [List.map_map]
    rfl
  · with_unfolding_all decide

/-- Counterexample for C3 as frozen: with two in-range amounts of $0.004,
rounding only the sums (the spec's words, `eeSpecClaim`) gives Earnings =
0.01, while the code rounds each row to 0.00 first and returns Earnings =
0. -/
theorem claim_c3_earnings_and_expenses_cex :
    earnings_and_expenses
      [⟨1, "2021-05-02", "$0.004", "x"⟩, ⟨1, "2021-05-03", "$0.004", "x"⟩]
      1 "2021-05-01" "2021-05-31" ≠
    eeSpecClaim
      [⟨1, "2021-05-02", "$0.004", "x"⟩, ⟨1, "2021-05-03", "$0.004", "x"⟩]
      1 "2021-05-01" "2021-05-31" := by with_unfolding_all decide

/-- C9 (amended): pre-restricting the input to the matching client and
inclusive date range leaves `earnings_and_expenses` and `cash_flow_summary`
unchanged; for `expenses_summary` the same holds provided every date in the
full input parses — that aggregator parses the entire `date` column before
filtering (line 125, no `errors="coerce"`) and raises otherwise, so
pre-filtering can turn a raising run into a successful one. -/
theorem claim_c9_filter_idempotent :
    (∀ (df : List Row) (c : ℤ) (sS eS : String),
        earnings_and_expenses (df.filter (eeMask c sS eS)) c sS eS =
          earnings_and_expenses df c sS eS) ∧
    (∀ (df : List Row) (c : ℤ) (sS eS : String),
        cash_flow_summary (df.filter (parsedRangeMask c sS eS)) c sS eS =
          cash_flow_summary df c sS eS) ∧
    (∀ (mcc_codes : List (String × String)) (df : List Row) (c : ℤ)
        (sS eS : String),
        df.all (fun r => (toDatetime r.date).isSome) = true →
        expenses_summary mcc_codes (df.filter (parsedRangeMask c sS eS)) c sS eS =
          expenses_summary mcc_codes df c sS eS) := by
  refine ⟨?_, ?_, ?_⟩
  · intro df c sS eS
    simp only [earnings_and_expenses, filter_filter_self]
  · intro df c sS eS
    cases hs : toDatetime sS with
    | none => simp only [cash_flow_summary, hs]
    | some s =>
        cases he : toDatetime eS with
        | none => simp only [cash_flow_summary, hs, he]
        | some e =>
            have key : cfFiltered (df.filter (parsedRangeMask c sS eS)) c s e =
                cfFiltered df c s e :=
              filterMap_filter_of (fun r hr => cfRowFn_none_of_mask hs he hr) df
            simp only [cash_flow_summary, hs, he, cashFlowBuckets, cfFiltered] at key ⊢
            rw [key]
  · intro mcc_codes df c sS eS hall
    have hall2 : (df.filter (parsedRangeMask c sS eS)).all
        (fun r => (toDatetime r.date).isSome) = true := by
      rw [List.all_eq_true] at hall ⊢
      exact fun r hr => hall r (List.mem_of_mem_filter hr)
    cases hs : toDatetime sS with
    | none => simp only [expenses_summary, hall, hall2, if_true, hs]
    | some s =>
        cases he : toDatetime eS with
        | none => simp only [expenses_summary, hall, hall2, if_true, hs, he]
        | some e =>
            have key : esFiltered mcc_codes (df.filter (parsedRangeMask c sS eS)) c s e =
                esFiltered mcc_codes df c s e :=
              filterMap_filter_of (fun r hr => esRowFn_none_of_mask hs he hr) df
            simp only [expenses_summary, hall, hall2, if_true, hs, he,
              esFiltered] at key ⊢
            rw [key]

/-- Witness for C9: on a one-row table whose dates all parse, pre-filtering
`expenses_summary` to the client and range leaves the result unchanged. -/
theorem claim_c9_filter_idempotent_witness :
    expenses_summary [("5411", "Groceries")]
      (([⟨1, "2021-05-02", "-$5", "5411"⟩] : List Row).filter
        (parsedRangeMask 1 "2021-05-01" "2021-05-31"))
      1 "2021-05-01" "2021-05-31" =
    expenses_summary [("5411", "Groceries")]
      [⟨1, "2021-05-02", "-$5", "5411"⟩] 1 "2021-05-01" "2021-05-31" :=
  claim_c9_filter_idempotent.2.2 [("5411", "Groceries")]
    [⟨1, "2021-05-02", "-$5", "5411"⟩] 1 "2021-05-01" "2021-05-31"
    (by with_unfolding_all decide)

/-- Counterexample for C9 as frozen: with a second row of another client
whose date string does not parse, `expenses_summary` on the full input
raises (it parses the whole date column before filtering), while on the
pre-filtered input it succeeds — the results differ. -/
theorem claim_c9_filter_idempotent_cex :
    expenses_summary [("5411", "Groceries")]
      [⟨1, "2021-05-02", "-$5", "5411"⟩, ⟨2, "garbage", "$1", "5411"⟩]
      1 "2021-05-01" "2021-05-31" =
      .error "ValueError: unparsable date in date column" ∧
    expenses_summary [("5411", "Groceries")]
      (([⟨1, "2021-05-02", "-$5", "5411"⟩, ⟨2, "garbage", "$1", "5411"⟩] :
          List Row).filter (parsedRangeMask 1 "2021-05-01" "2021-05-31"))
      1 "2021-05-01" "2021-05-31" =
      .ok [⟨"Groceries", 5, 5, 5, 5, 1⟩] :=
  ⟨by with_unfolding_all rfl, by with_unfolding_all rfl⟩

/-! Helper lemmas about successful `expenses_summary` runs. -/

theorem expenses_summary_ok_elim {mcc_codes : List (String × String)}
    {df : List Row} {c : ℤ} {sS eS : String} {rows : List ESRow}
    (h : expenses_summary mcc_codes df c sS eS = .ok rows) :
    ∃ s e, toDatetime sS = some s ∧ toDatetime eS = some e ∧
      rows = (groupKeys Prod.fst (esFiltered mcc_codes df c s e)).map
        (fun k => mkESRow k (((esFiltered mcc_codes df c s e).filter
          (fun p => p.1 == k)).map Prod.snd)) := by
  unfold expenses_summary at h
  split_ifs at h with hall
  · cases hs : toDatetime sS with
    | none =>
        cases he : toDatetime eS with
        | none => rw [hs, he] at h; simp at h
        | some e => rw [hs, he] at h; simp at h
    | some s =>
        cases he : toDatetime eS with
        | none => rw [hs, he] at h; simp at h
        | some e =>
            rw [hs, he] at h
            refine ⟨s, e, rfl, rfl, ?_⟩
            have h2 := h
            simp only [Except.ok.injEq] at h2
            exact h2.symm

theorem mem_esFiltered {mcc_codes : List (String × String)} {df : List Row}
    {c : ℤ} {s e : Date} {k : String} {q : ℚ}
    (h : (k, q) ∈ esFiltered mcc_codes df c s e) :
    ∃ r ∈ df, q < 0 ∧ List.lookup r.mcc mcc_codes = some k ∧
      toNumeric (replaceDollar r.amount) = some q := by
  obtain ⟨r, hr, hfn⟩ := List.mem_filterMap.1 h
  obtain ⟨h1, h2, h3⟩ := esRowFn_some hfn
  exact ⟨r, hr, h1, h2, h3⟩

/-- C1 (amended): a filtered expense row whose mcc code (as a string) is not
a key of the category lookup is silently dropped by `expenses_summary` — the
`map` produces a null category and the default `groupby(dropna=True)` drops
the null key; no error is raised and no null-category row appears.
Consequently every output row's category name is the lookup value of some
code. -/
theorem claim_c1_unmapped_mcc_dropped :
    ∀ (mcc_codes : List (String × String)) (df : List Row) (c : ℤ)
      (sS eS : String) (rows : List ESRow),
      expenses_summary mcc_codes df c sS eS = .ok rows →
      ∀ r ∈ rows, ∃ code, (code, r.expensesType) ∈ mcc_codes := by
  intro mcc_codes df c sS eS rows h r hr
  obtain ⟨s, e, hs, he, rfl⟩ := expenses_summary_ok_elim h
  obtain ⟨k, hk, rfl⟩ := List.mem_map.1 hr
  obtain ⟨p, hp, hpk⟩ := mem_groupKeys.1 hk
  obtain ⟨pk, pq⟩ := p
  have hpk2 : pk = k := hpk
  subst hpk2
  obtain ⟨row, hrow, hneg, hlook, hnum⟩ := mem_esFiltered hp
  exact ⟨row.mcc, lookup_mem hlook⟩

/-- Witness for C1: with a mapped code, the single output row's category
name is the lookup value of some code. -/
theorem claim_c1_unmapped_mcc_dropped_witness :
    ∃ code, (code, (ESRow.mk "Groceries" 5 5 5 5 1).expensesType) ∈
      [("5411", "Groceries")] :=
  claim_c1_unmapped_mcc_dropped [("5411", "Groceries")]
    [⟨1, "2021-05-02", "-$5", "5411"⟩] 1 "2021-05-01" "2021-05-31"
    [⟨"Groceries", 5, 5, 5, 5, 1⟩] (by with_unfolding_all rfl)
    ⟨"Groceries", 5, 5, 5, 5, 1⟩ (by simp)

/-- Counterexample for C1 as frozen: one filtered expense row whose mcc
"9999" is not a key of the lookup produces an *empty* output — the row is
dropped, it does not appear under a null category. -/
theorem claim_c1_unmapped_mcc_dropped_cex :
    expenses_summary [("5411", "Groceries")]
      [⟨1, "2021-05-02", "-$5", "9999"⟩] 1 "2021-05-01" "2021-05-31" =
      .ok [] := by
  with_unfolding_all rfl

/-- C8: in every `expenses_summary` output row, Max is the absolute value of
the rounded maximum of the group's raw (all negative) amounts and Min the
absolute value of the rounded minimum — abs is applied to each statistic
after rounding, not recomputed over absolute values — and consequently
Max ≤ Min. -/
theorem claim_c8_max_le_min :
    ∀ (mcc_codes : List (String × String)) (df : List Row) (c : ℤ)
      (sS eS : String) (rows : List ESRow),
      expenses_summary mcc_codes df c sS eS = .ok rows →
      ∀ r ∈ rows, ∃ g : List ℚ, g ≠ [] ∧ (∀ q ∈ g, q < 0) ∧
        r.max = |round2 (listMax g)| ∧ r.min = |round2 (listMin g)| ∧
        r.max ≤ r.min := by
  intro mcc_codes df c sS eS rows h r hr
  obtain ⟨s, e, hs, he, rfl⟩ := expenses_summary_ok_elim h
  obtain ⟨k, hk, rfl⟩ := List.mem_map.1 hr
  refine ⟨((esFiltered mcc_codes df c s e).filter
    (fun p => p.1 == k)).map Prod.snd, ?_, ?_, by rfl, by rfl, ?_⟩
  · have hne := group_ne_nil hk
    simpa using hne
  · intro q hq
    obtain ⟨p, hpf, hpq⟩ := List.mem_map.1 hq
    have hpe : p ∈ esFiltered mcc_codes df c s e := List.mem_of_mem_filter hpf
    obtain ⟨pk, pq⟩ := p
    obtain ⟨row, -, hneg, -, -⟩ := mem_esFiltered hpe
    have : pq = q := hpq
    rw [← this]
    exact hneg
  · set g := ((esFiltered mcc_codes df c s e).filter
      (fun p => p.1 == k)).map Prod.snd with hg
    have hgne : g ≠ [] := by
      have hne := group_ne_nil hk
      simpa [hg] using hne
    have hneg : ∀ q ∈ g, q < 0 := by
      intro q hq
      obtain ⟨p, hpf, hpq⟩ := List.mem_map.1 hq
      have hpe : p ∈ esFiltered mcc_codes df c s e := List.mem_of_mem_filter hpf
      obtain ⟨pk, pq⟩ := p
      obtain ⟨row, -, hn, -, -⟩ := mem_esFiltered hpe
      have : pq = q := hpq
      rw [← this]
      exact hn
    have hMmem : listMax g ∈ g := listMax_mem hgne
    have hmaxneg : listMax g < 0 := hneg _ hMmem
    have hminle : listMin g ≤ listMax g := listMin_le hMmem
    have h1 : round2 (listMin g) ≤ round2 (listMax g) := round2_mono hminle
    have h2 : round2 (listMax g) ≤ 0 := round2_nonpos (le_of_lt hmaxneg)
    show |round2 (listMax g)| ≤ |round2 (listMin g)|
    rw [abs_of_nonpos h2, abs_of_nonpos (h1.trans h2)]
    linarith

/-- Witness for C8: two all-negative amounts -10 and -2.5 give Max = 2.5
and Min = 10 with Max ≤ Min. -/
theorem claim_c8_max_le_min_witness :
    ∃ g : List ℚ, g ≠ [] ∧ (∀ q ∈ g, q < 0) ∧
      (ESRow.mk "Groceries" (25/2) (25/4) (5/2) 10 2).max = |round2 (listMax g)| ∧
      (ESRow.mk "Groceries" (25/2) (25/4) (5/2) 10 2).min = |round2 (listMin g)| ∧
      (ESRow.mk "Groceries" (25/2) (25/4) (5/2) 10 2).max ≤
        (ESRow.mk "Groceries" (25/2) (25/4) (5/2) 10 2).min :=
  claim_c8_max_le_min [("5411", "Groceries")]
    [⟨1, "2021-05-02", "-$10", "5411"⟩, ⟨1, "2021-05-03", "-$2.5", "5411"⟩]
    1 "2021-05-01" "2021-05-31" [⟨"Groceries", 25/2, 25/4, 5/2, 10, 2⟩]
    (by with_unfolding_all rfl) ⟨"Groceries", 25/2, 25/4, 5/2, 10, 2⟩ (by simp)

/-! Helper lemmas about successful `cash_flow_summary` runs. -/

theorem cash_flow_summary_ok_elim {df : List Row} {c : ℤ} {sS eS : String}
    {rows : List CFRow} (h : cash_flow_summary df c sS eS = .ok rows) :
    ∃ s e, toDatetime sS = some s ∧ toDatetime eS = some e ∧
      cfFiltered df c s e ≠ [] ∧
      rows = cashFlowBuckets df c s e (decide (60 < serial e - serial s)) := by
  unfold cash_flow_summary at h
  cases hs : toDatetime sS with
  | none =>
      cases he : toDatetime eS with
      | none => rw [hs, he] at h; simp at h
      | some e => rw [hs, he] at h; simp at h
  | some s =>
      cases he : toDatetime eS with
      | none => rw [hs, he] at h; simp at h
      | some e =>
          rw [hs, he] at h
          have h2 : (if (cfFiltered df c s e).isEmpty then
              (.error "KeyError: Inflows" : Except String (List CFRow))
            else
              .ok (cashFlowBuckets df c s e
                (decide (60 < serial e - serial s)))) = .ok rows := h
          split_ifs at h2 with hemp
          refine ⟨s, e, rfl, rfl, ?_, ?_⟩
          · intro hcon
            rw [hcon] at hemp
            simp at hemp
          · have h3 := h2
            simp only [Except.ok.injEq] at h3
            exact h3.symm

theorem mem_cashFlowBuckets {df : List Row} {c : ℤ} {s e : Date}
    {monthly : Bool} {r : CFRow} (hr : r ∈ cashFlowBuckets df c s e monthly) :
    ∃ k, r = mkCFRow k ((((cfFiltered df c s e).map
        (fun p => (cfLabel monthly p.1, p.2))).filter
          (fun p => p.1 == k)).map Prod.snd) ∧
      ∃ d a, (d, a) ∈ cfFiltered df c s e ∧ k = cfLabel monthly d := by
  unfold cashFlowBuckets at hr
  obtain ⟨k, hk, hkr⟩ := List.mem_map.1 hr
  refine ⟨k, hkr.symm, ?_⟩
  obtain ⟨p, hp, hpk⟩ := mem_groupKeys.1 hk
  obtain ⟨q, hq, hqp⟩ := List.mem_map.1 hp
  obtain ⟨d0, a0⟩ := q
  refine ⟨d0, a0, hq, ?_⟩
  have h1 : cfLabel monthly d0 = p.1 := by rw [← hqp]
  rw [← hpk, ← h1]

theorem mem_cfGroup_amount {df : List Row} {c : ℤ} {s e : Date}
    {monthly : Bool} {k : String} {a : Option ℚ}
    (ha : a ∈ (((cfFiltered df c s e).map
        (fun p => (cfLabel monthly p.1, p.2))).filter
          (fun p => p.1 == k)).map Prod.snd) :
    ∃ r ∈ df, a = toNumeric (replaceDollar r.amount) := by
  obtain ⟨p, hpf, hpa⟩ := List.mem_map.1 ha
  have hpl := List.mem_of_mem_filter hpf
  obtain ⟨q, hq, hqp⟩ := List.mem_map.1 hpl
  obtain ⟨d0, a0⟩ := q
  obtain ⟨row, hrow, hfn⟩ := List.mem_filterMap.1 hq
  have h2 : a0 = toNumeric (replaceDollar row.amount) := cfRowFn_some hfn
  refine ⟨row, hrow, ?_⟩
  have h3 : a0 = p.2 := by rw [← hqp]
  rw [← hpa, ← h3, h2]

theorem inflowOf_nonneg (a : Option ℚ) : 0 ≤ inflowOf a := by
  cases a with
  | none => exact le_refl 0
  | some q =>
      show 0 ≤ if 0 ≤ q then q else 0
      split_ifs with h
      · exact h
      · exact le_refl 0

theorem outflowOf_nonneg (a : Option ℚ) : 0 ≤ outflowOf a := by
  cases a with
  | none => exact le_refl 0
  | some q =>
      show 0 ≤ if q < 0 then -q else 0
      split_ifs with h
      · linarith
      · exact le_refl 0

theorem savingsOf_of_ne {net I : ℚ} (h : I ≠ 0) :
    savingsOf net I = .fin (round2 (net / I * 100)) := by
  unfold savingsOf pdDiv
  rw [if_neg h]
  rfl

theorem savingsOf_zero_zero : savingsOf 0 0 = .fin 0 := by
  unfold savingsOf pdDiv pFillna0 pMul100 pRound2
  norm_num [round2_zero]

theorem savingsOf_neg_zero {net : ℚ} (h : net < 0) :
    savingsOf net 0 = .negInf := by
  unfold savingsOf pdDiv
  rw [if_pos rfl, if_neg (ne_of_lt h), if_neg (by linarith : ¬ (0 : ℚ) < net)]
  rfl

/-- C2 (amended): in every `cash_flow_summary` output row the displayed
Inflows/Outflows/Net are the rounded bucket sums, and `% Savings` is
computed from the *unrounded* net and inflow sums: `round2(Net/Inflows×100)`
when the unrounded Inflows are nonzero; `0` when the bucket has neither
inflows nor outflows (the `0/0 → NaN → fillna(0)` path); and negative
infinity — not 0 — when the bucket has outflows but no inflows, because
`fillna(0)` does not replace the `-inf` produced by `x/0`. -/
theorem claim_c2_savings :
    ∀ (df : List Row) (c : ℤ) (sS eS : String) (rows : List CFRow),
      cash_flow_summary df c sS eS = .ok rows →
      ∀ r ∈ rows, ∃ I O : ℚ, 0 ≤ I ∧ 0 ≤ O ∧
        r.inflows = round2 I ∧ r.outflows = round2 O ∧
        r.net = round2 (I - O) ∧ r.savings = savingsOf (I - O) I ∧
        (I ≠ 0 → r.savings = .fin (round2 ((I - O) / I * 100))) ∧
        (I = 0 → O = 0 → r.savings = .fin 0) ∧
        (I = 0 → 0 < O → r.savings = .negInf) := by
  intro df c sS eS rows h r hr
  obtain ⟨s, e, hs, he, -, rfl⟩ := cash_flow_summary_ok_elim h
  obtain ⟨k, hrk, -⟩ := mem_cashFlowBuckets hr
  subst hrk
  set g := ((((cfFiltered df c s e).map
      (fun p => (cfLabel (decide (60 < serial e - serial s)) p.1, p.2))).filter
        (fun p => p.1 == k)).map Prod.snd) with hg
  refine ⟨(g.map inflowOf).sum, (g.map outflowOf).sum, ?_, ?_,
    by rfl, by rfl, by rfl, by rfl, ?_, ?_, ?_⟩
  · exact List.sum_nonneg (by
      intro x hx
      obtain ⟨a, -, rfl⟩ := List.mem_map.1 hx
      exact inflowOf_nonneg a)
  · exact List.sum_nonneg (by
      intro x hx
      obtain ⟨a, -, rfl⟩ := List.mem_map.1 hx
      exact outflowOf_nonneg a)
  · intro hI
    show savingsOf _ _ = _
    exact savingsOf_of_ne hI
  · intro hI hO
    show savingsOf ((g.map inflowOf).sum - (g.map outflowOf).sum)
      (g.map inflowOf).sum = .fin 0
    rw [hI, hO]
    norm_num [savingsOf_zero_zero]
  · intro hI hO
    show savingsOf ((g.map inflowOf).sum - (g.map outflowOf).sum)
      (g.map inflowOf).sum = .negInf
    rw [hI]
    have hlt : (0 : ℚ) - (g.map outflowOf).sum < 0 := by linarith
    rw [savingsOf_neg_zero hlt]

/-- Witness for C2: the outflow-only bucket of a single -$10 transaction
instantiates the theorem; its `% Savings` is negative infinity. -/
theorem claim_c2_savings_witness :
    ∃ I O : ℚ, 0 ≤ I ∧ 0 ≤ O ∧
      (CFRow.mk "2021-05-02" 0 10 (-10) .negInf).inflows = round2 I ∧
      (CFRow.mk "2021-05-02" 0 10 (-10) .negInf).outflows = round2 O ∧
      (CFRow.mk "2021-05-02" 0 10 (-10) .negInf).net = round2 (I - O) ∧
      (CFRow.mk "2021-05-02" 0 10 (-10) .negInf).savings = savingsOf (I - O) I ∧
      (I ≠ 0 → (CFRow.mk "2021-05-02" 0 10 (-10) .negInf).savings =
        .fin (round2 ((I - O) / I * 100))) ∧
      (I = 0 → O = 0 → (CFRow.mk "2021-05-02" 0 10 (-10) .negInf).savings =
        .fin 0) ∧
      (I = 0 → 0 < O → (CFRow.mk "2021-05-02" 0 10 (-10) .negInf).savings =
        .negInf) :=
  claim_c2_savings [⟨1, "2021-05-02", "-$10", "x"⟩] 1 "2021-05-01" "2021-05-31"
    [⟨"2021-05-02", 0, 10, -10, .negInf⟩] (by with_unfolding_all rfl)
    ⟨"2021-05-02", 0, 10, -10, .negInf⟩ (by simp)

/-- Counterexample for C2 as frozen: a bucket with outflows but no inflows
(single transaction -$10) has `% Savings` equal to negative infinity in the
output, not 0 — `fillna(0)` only replaces the NaN of `0/0`, not the `-inf`
of `-10/0`. -/
theorem claim_c2_savings_cex :
    cash_flow_summary [⟨1, "2021-05-02", "-$10", "x"⟩] 1
        "2021-05-01" "2021-05-31" =
      .ok [⟨"2021-05-02", 0, 10, -10, .negInf⟩] ∧
    PValue.negInf ≠ .fin 0 :=
  ⟨by with_unfolding_all rfl, by decide⟩

theorem IsCents.neg {a : ℚ} (h : IsCents a) : IsCents (-a) := by
  have := isCents_zero.sub h
  simpa using this

/-- C4 (amended): `Net Cash Flow = Inflows - Outflows` holds exactly between
the displayed (rounded) values whenever every parsed amount in the input is
a whole number of cents — then rounding is the identity on all three sums.
In general the code rounds the *unrounded* difference, which can differ from
the difference of the rounded sums for sub-cent amounts. -/
theorem claim_c4_net_identity :
    ∀ (df : List Row) (c : ℤ) (sS eS : String),
      (∀ r ∈ df, ∀ q, toNumeric (replaceDollar r.amount) = some q → IsCents q) →
      ∀ rows, cash_flow_summary df c sS eS = .ok rows →
      ∀ r ∈ rows, r.net = r.inflows - r.outflows := by
  intro df c sS eS hcents rows h r hr
  obtain ⟨s, e, hs, he, -, rfl⟩ := cash_flow_summary_ok_elim h
  obtain ⟨k, hrk, -⟩ := mem_cashFlowBuckets hr
  subst hrk
  set g := ((((cfFiltered df c s e).map
      (fun p => (cfLabel (decide (60 < serial e - serial s)) p.1, p.2))).filter
        (fun p => p.1 == k)).map Prod.snd) with hg
  have hga : ∀ a ∈ g, IsCents (inflowOf a) ∧ IsCents (outflowOf a) := by
    intro a ha
    obtain ⟨row, hrow, hA⟩ := mem_cfGroup_amount (hg ▸ ha)
    cases hn : toNumeric (replaceDollar row.amount) with
    | none =>
        rw [hn] at hA
        subst hA
        exact ⟨isCents_zero, isCents_zero⟩
    | some q =>
        rw [hn] at hA
        subst hA
        have hq : IsCents q := hcents row hrow q hn
        constructor
        · show IsCents (if 0 ≤ q then q else 0)
          split_ifs
          · exact hq
          · exact isCents_zero
        · show IsCents (if q < 0 then -q else 0)
          split_ifs
          · exact hq.neg
          · exact isCents_zero
  have hI : IsCents (g.map inflowOf).sum := isCents_sum (by
    intro x hx
    obtain ⟨a, ha, rfl⟩ := List.mem_map.1 hx
    exact (hga a ha).1)
  have hO : IsCents (g.map outflowOf).sum := isCents_sum (by
    intro x hx
    obtain ⟨a, ha, rfl⟩ := List.mem_map.1 hx
    exact (hga a ha).2)
  show round2 ((g.map inflowOf).sum - (g.map outflowOf).sum) =
    round2 (g.map inflowOf).sum - round2 (g.map outflowOf).sum
  rw [round2_of_isCents hI, round2_of_isCents hO, round2_of_isCents (hI.sub hO)]

/-- Witness for C4: whole-cent amounts $0.10 and -$0.04 in one weekly bucket
give Net = Inflows - Outflows exactly. -/
theorem claim_c4_net_identity_witness :
    cash_flow_summary
      [⟨1, "2021-05-03", "$0.10", "x"⟩, ⟨1, "2021-05-04", "-$0.04", "x"⟩]
      1 "2021-05-01" "2021-05-31" =
      .ok [⟨"2021-05-09", 1/10, 1/25, 3/50, .fin 60⟩] ∧
    (CFRow.mk "2021-05-09" (1/10) (1/25) (3/50) (.fin 60)).net =
      (CFRow.mk "2021-05-09" (1/10) (1/25) (3/50) (.fin 60)).inflows -
      (CFRow.mk "2021-05-09" (1/10) (1/25) (3/50) (.fin 60)).outflows :=
  ⟨by with_unfolding_all rfl,
   claim_c4_net_identity
     [⟨1, "2021-05-03", "$0.10", "x"⟩, ⟨1, "2021-05-04", "-$0.04", "x"⟩]
     1 "2021-05-01" "2021-05-31"
     (by
       intro r hr q hq
       simp only [List.mem_cons, List.not_mem_nil, or_false] at hr
       rcases hr with rfl | rfl
       · refine ⟨10, ?_⟩
         have : toNumeric (replaceDollar "$0.10") = some (1/10) := by
           with_unfolding_all rfl
         rw [this] at hq
         obtain rfl : (1 : ℚ)/10 = q := by simpa using hq
         norm_num
       · refine ⟨-4, ?_⟩
         have : toNumeric (replaceDollar "-$0.04") = some (-(1/25)) := by
           with_unfolding_all rfl
         rw [this] at hq
         obtain rfl : -((1 : ℚ)/25) = q := by simpa using hq
         norm_num)
     [⟨"2021-05-09", 1/10, 1/25, 3/50, .fin 60⟩] (by with_unfolding_all rfl)
     ⟨"2021-05-09", 1/10, 1/25, 3/50, .fin 60⟩ (by simp)⟩

/-- Counterexample for C4 as frozen: sub-cent amounts $0.006 and -$0.004 in
the same weekly bucket display Inflows = 0.01, Outflows = 0.00 and
Net = 0.00, and 0.00 ≠ 0.01 - 0.00 — the rounded Net is not the difference
of the rounded columns. -/
theorem claim_c4_net_identity_cex :
    cash_flow_summary
      [⟨1, "2021-05-03", "$0.006", "x"⟩, ⟨1, "2021-05-04", "-$0.004", "x"⟩]
      1 "2021-05-01" "2021-05-31" =
      .ok [⟨"2021-05-09", 1/100, 0, 0, .fin (3333/100)⟩] ∧
    ¬ ((0 : ℚ) = 1/100 - 0) :=
  ⟨by with_unfolding_all rfl, by norm_num⟩

/-- C7: on every run that aggregates at least one row (an empty client/date
filter instead raises `KeyError` at line 258), `cash_flow_summary` buckets
monthly exactly when `(end - start).days > 60` and weekly otherwise: the
result is the bucketing with `monthly = decide (60 < serial e - serial s)`,
a range of exactly 60 days uses weekly buckets, 61 days uses monthly
buckets, every monthly label is the `YYYY-MM` rendering of some filtered
row's date, and every weekly label is the `YYYY-MM-DD` end of the calendar
week (Sunday) of some filtered row's date. -/
theorem claim_c7_granularity (df : List Row) (c : ℤ) (sS eS : String)
    (s e : Date) (hs : toDatetime sS = some s) (he : toDatetime eS = some e)
    (hne : cfFiltered df c s e ≠ []) :
    cash_flow_summary df c sS eS =
      .ok (cashFlowBuckets df c s e (decide (60 < serial e - serial s))) ∧
    (serial e - serial s = 60 →
      cash_flow_summary df c sS eS = .ok (cashFlowBuckets df c s e false)) ∧
    (serial e - serial s = 61 →
      cash_flow_summary df c sS eS = .ok (cashFlowBuckets df c s e true)) ∧
    (∀ r ∈ cashFlowBuckets df c s e true, ∃ d a,
      (d, a) ∈ cfFiltered df c s e ∧ r.date = fmtYM d) ∧
    (∀ r ∈ cashFlowBuckets df c s e false, ∃ d a,
      (d, a) ∈ cfFiltered df c s e ∧ r.date = fmtYMD (weekEnd d)) := by
  have hb : (cfFiltered df c s e).isEmpty = false := by
    cases hfe : cfFiltered df c s e with
    | nil => exact absurd hfe hne
    | cons p t => rfl
  refine ⟨by simp [cash_flow_summary, hs, he, hb], ?_, ?_, ?_, ?_⟩
  · intro hd
    simp [cash_flow_summary, hs, he, hb, hd]
  · intro hd
    simp [cash_flow_summary, hs, he, hb, hd]
  · intro r hr
    obtain ⟨k, hrk, d, a, hda, hk⟩ := mem_cashFlowBuckets hr
    refine ⟨d, a, hda, ?_⟩
    subst hrk
    subst hk
    rfl
  · intro r hr
    obtain ⟨k, hrk, d, a, hda, hk⟩ := mem_cashFlowBuckets hr
    refine ⟨d, a, hda, ?_⟩
    subst hrk
    subst hk
    rfl

/-- Witness for C7: a range of exactly 60 days (2021-01-01 to 2021-03-02)
with one matching row (so the filter is non-empty) uses weekly buckets, and
the row dated 2021-01-05 lands in the week ending Sunday 2021-01-10. -/
theorem claim_c7_granularity_witness :
    cash_flow_summary [⟨1, "2021-01-05", "$10", "x"⟩] 1
        "2021-01-01" "2021-03-02" =
      .ok (cashFlowBuckets [⟨1, "2021-01-05", "$10", "x"⟩] 1
        ⟨2021, 1, 1⟩ ⟨2021, 3, 2⟩ false) ∧
    cashFlowBuckets [⟨1, "2021-01-05", "$10", "x"⟩] 1
        ⟨2021, 1, 1⟩ ⟨2021, 3, 2⟩ false =
      [⟨"2021-01-10", 10, 0, 10, .fin 100⟩] :=
  ⟨(claim_c7_granularity [⟨1, "2021-01-05", "$10", "x"⟩] 1
      "2021-01-01" "2021-03-02" ⟨2021, 1, 1⟩ ⟨2021, 3, 2⟩
      (by with_unfolding_all rfl) (by with_unfolding_all rfl)
      (by with_unfolding_all decide)).2.1
    (by with_unfolding_all decide),
   by with_unfolding_all rfl⟩

/-- C6: `run_agent` raises a validation error exactly when `extract_dates`
yields no date pair (either `(None, None)` or an error raised inside the
extractor); otherwise it returns the record
`{start_date, end_date, client_id, create_report}` with `create_report`
true iff the dataset filtered to the client and the extracted inclusive
range is non-empty, and no PDF path is produced when `create_report` is
false. -/
theorem claim_c6_run_agent (predict : String → String) (df : List ARow)
    (c : ℤ) (inp : String) :
    ((∃ msg, run_agent predict df c inp = .error msg) ↔
      ¬ ∃ s e, extract_dates inp = .ok (some (s, e))) ∧
    (∀ s e, extract_dates inp = .ok (some (s, e)) →
      ∀ res pdfPath, run_agent predict df c inp = .ok (res, pdfPath) →
        res.start_date = fmtYMD s ∧ res.end_date = fmtYMD e ∧
        res.client_id = c ∧
        (res.create_report = true ↔ df.filter (agentMask c s e) ≠ []) ∧
        (res.create_report = false → pdfPath = none)) := by
  cases hx : extract_dates inp with
  | error msg0 =>
      constructor
      · refine iff_of_true ⟨msg0, by simp [run_agent, hx]⟩ ?_
        rintro ⟨s, e, hok⟩
        simp at hok
      · intro s e hok
        simp at hok
  | ok od =>
      cases od with
      | none =>
          constructor
          · refine iff_of_true
              ⟨"Fechas no válidas en el prompt.", by simp [run_agent, hx]⟩ ?_
            rintro ⟨s, e, hok⟩
            simp at hok
          · intro s e hok
            simp at hok
      | some p =>
          obtain ⟨s0, e0⟩ := p
          have hno : ∀ msg, run_agent predict df c inp ≠ .error msg := by
            intro msg
            simp only [run_agent, hx]
            by_cases hne : (df.filter (agentMask c s0 e0)).isEmpty
            · simp [hne]
            · simp [hne]
          constructor
          · exact iff_of_false
              (by rintro ⟨msg, hmsg⟩; exact hno msg hmsg)
              (by intro hcon; exact hcon ⟨s0, e0, rfl⟩)
          · intro s e hok res pdfPath hrun
            have hp : s0 = s ∧ e0 = e := by
              have := hok
              simp only [Except.ok.injEq, Option.some.injEq, Prod.mk.injEq] at this
              exact this
            obtain ⟨rfl, rfl⟩ := hp
            simp only [run_agent, hx] at hrun
            by_cases hne : (df.filter (agentMask c s0 e0)).isEmpty
            · rw [if_neg (by simp [hne])] at hrun
              have hres : (⟨fmtYMD s0, fmtYMD e0, c, false⟩ : AgentResult) = res ∧
                  (none : Option String) = pdfPath := by
                simpa using hrun
              obtain ⟨h1, h2⟩ := hres
              subst h1
              subst h2
              refine ⟨rfl, rfl, rfl, ?_, fun _ => rfl⟩
              refine iff_of_false (by simp) ?_
              intro hcon
              exact hcon (List.isEmpty_iff.1 hne)
            · rw [if_pos (by simp [hne])] at hrun
              have hres : (⟨fmtYMD s0, fmtYMD e0, c, true⟩ : AgentResult) = res ∧
                  some (create_pdf_report c s0 e0
                    (predict (agentPrompt c s0 e0)) "reports/") = pdfPath := by
                simpa using hrun
              obtain ⟨h1, h2⟩ := hres
              subst h1
              subst h2
              refine ⟨rfl, rfl, rfl, ?_, ?_⟩
              · refine iff_of_true rfl ?_
                intro hcon
                rw [hcon] at hne
                simp at hne
              · intro hcon
                simp at hcon

/-- Witness for C6: on a prompt with two ISO dates and a client with one
in-range row, `run_agent` returns `create_report = true` and the PDF path
at the deterministic location. -/
theorem claim_c6_run_agent_witness :
    run_agent (fun _ => "texto") [⟨1, ⟨2021, 5, 2⟩⟩] 1
        "informe 2021-05-01 2021-05-31" =
      .ok (⟨"2021-05-01", "2021-05-31", 1, true⟩,
        some "reports/reporte_cliente_1_20210501_20210531.pdf") ∧
    ((⟨"2021-05-01", "2021-05-31", 1, true⟩ : AgentResult).create_report = true ↔
      ([⟨1, ⟨2021, 5, 2⟩⟩] : List ARow).filter
        (agentMask 1 ⟨2021, 5, 1⟩ ⟨2021, 5, 31⟩) ≠ []) :=
  ⟨by with_unfolding_all rfl,
   ((claim_c6_run_agent (fun _ => "texto") [⟨1, ⟨2021, 5, 2⟩⟩] 1
       "informe 2021-05-01 2021-05-31").2 ⟨2021, 5, 1⟩ ⟨2021, 5, 31⟩
     (by with_unfolding_all rfl)
     ⟨"2021-05-01", "2021-05-31", 1, true⟩
     (some "reports/reporte_cliente_1_20210501_20210531.pdf")
     (by with_unfolding_all rfl)).2.2.2.1⟩
